import Mathlib

/-!
A verification development for the stacker build tool's core:
the content comparator and single-file import path (`import.go`),
the bundle-mtree maintenance and image-config merge of the commit
pipeline, and the per-layer build orchestration loop
(`stacker/build.go`), shallowly embedded in Lean.

Filesystem entries are modelled by records carrying the results of the
syscalls the Go code performs on them (`Stat`/`Lstat` metadata,
`Readlink` targets, and the byte content obtained by opening the path).
External collaborators of the orchestrator (storage snapshots, the OCI
layout, command execution) are modelled by an explicit event trace.
-/

/-- A filesystem entry as seen by `filesDiffer` (`import.go`): the
`os.FileInfo` handed in (`name`, symlink mode bit, `size`) together with
what `os.Readlink` would return for the path (`linkTarget`) and the
bytes obtained by opening and reading the path (`content`). -/
structure FsEntry where
  name : String
  isSymlink : Bool
  linkTarget : String
  size : Nat
  content : List Nat
deriving DecidableEq

/-- Embeds `filesDiffer` of `import.go`: errors on mismatched base
names; if the first entry is a symlink, requires the second to be one
too and compares `Readlink` targets as strings; otherwise compares
sizes (fast path) and then byte content. Returns `true` when the files
differ. -/
def filesDiffer (e1 e2 : FsEntry) : Except String Bool :=
  if e1.name ≠ e2.name then
    .error "comparing files without the same name?"
  else if e1.isSymlink then
    if e2.isSymlink then
      .ok (e1.linkTarget != e2.linkTarget)
    else
      .error "symlink -> not symlink not supported"
  else if e1.size ≠ e2.size then
    .ok true
  else
    .ok (e1.content != e2.content)

/-- A regular file in the import cache model: base name, permission
mode bits, and byte content. -/
structure File where
  name : String
  mode : Nat
  content : List Nat
deriving DecidableEq

/-- The `os.FileInfo`/content view of a regular file, as `os.Stat`
(which follows symlinks) produces it at the `importFile` call sites:
never a symlink, size equal to the byte length. -/
def statEntry (f : File) : FsEntry :=
  { name := f.name, isSymlink := false, linkTarget := "", size := f.content.length,
    content := f.content }

/-- Embeds `fileCopy` of `import.go`: the destination file is created
with the source's content, and `Chmod(fi.Mode())` gives it the source's
mode bits. `destName` is the base name of the destination path. -/
def fileCopy (destName : String) (source : File) : File :=
  { name := destName, mode := source.mode, content := source.content }

/-- Embeds the single-file (non-directory) path of `importFile`
(`import.go`). `dest` is the file currently present at
`cacheDir/Base(imp)`, or `none` when `os.Stat` of the destination
fails. Returns the resulting destination file together with the number
of copies performed (the `fmt.Printf("copying ...")` branch). -/
def importFile (src : File) (dest : Option File) : Except String (File × Nat) :=
  match dest with
  | none => .ok (fileCopy src.name src, 1)
  | some d =>
    match filesDiffer (statEntry src) (statEntry d) with
    | .error e => .error e
    | .ok differ =>
      if differ then .ok (fileCopy src.name src, 1) else .ok (d, 0)

/-- Decides whether the char list `p` is an initial segment of `s`.
Basis for the embedding of Go's `strings.HasPrefix`. -/
def isPre : List Char → List Char → Bool
  | [], _ => true
  | _ :: _, [] => false
  | a :: as, b :: bs => a == b && isPre as bs

/-- Embeds Go `strings.HasPrefix s p`: the bytes of `p` start `s`. -/
def hasPref (s p : String) : Bool := isPre p.data s.data

/-- Embeds Go `strings.HasSuffix s p`: the bytes of `p` end `s`. -/
def hasSuf (s p : String) : Bool := isPre p.data.reverse s.data.reverse

/-- Embeds `strings.Replace(s, ":", "_", 1)` as used by
`updateBundleMtree` (`stacker/build.go`): replace the first colon with
an underscore. -/
def replaceColonOnce : List Char → List Char
  | [] => []
  | c :: rest => if c == ':' then '_' :: rest else c :: replaceColonOnce rest

/-- The new mtree file name computed by `updateBundleMtree`
(`stacker/build.go` line 50): the descriptor digest with its first
colon replaced by an underscore, suffixed with `.mtree`. -/
def mtreeName (digest : String) : String :=
  String.mk (replaceColonOnce digest.data) ++ ".mtree"

/-- Embeds `updateBundleMtree` (`stacker/build.go`): scans the
directory listing in order, renames the first entry with suffix
`.mtree` to `mtreeName digest` and returns immediately; entries after
the first match are untouched, and a listing with no `.mtree` entry is
returned unchanged (the Go function returns `nil` in that case).
The result is the directory listing after the function runs; `ReadDir`
and `Rename` IO failures are not modelled. -/
def updateBundleMtree (digest : String) : List String → List String
  | [] => []
  | f :: rest =>
    if hasSuf f ".mtree" then mtreeName digest :: rest
    else f :: updateBundleMtree digest rest

/-- Modelled from the spec: the documented reasonable default `PATH`
appended when neither the layer nor the inherited config provides one.
The constant `stacker.ReasonableDefaultPath` is declared outside the
provided sources; its exact value is irrelevant to the claims. -/
def ReasonableDefaultPath : String :=
  "/usr/local/sbin:/usr/local/bin:/usr/sbin:/usr/bin:/sbin:/bin"

/-- Embeds the environment merge of `doBuild` (`stacker/build.go` lines
209–229): append each declared `k=v` pair to the inherited environment,
remembering whether a declared key is exactly `PATH`; then, if not, scan
the merged environment for an entry with prefix `PATH=`; if still no
`PATH` was seen, append the default `PATH`. The declared map is
modelled as an association list (Go map iteration order is arbitrary;
the claims do not depend on it). -/
def mergeEnv (declared : List (String × String)) (env : List String) : List String :=
  let step := declared.foldl
    (fun acc kv => (acc.1 ++ [kv.1 ++ "=" ++ kv.2], acc.2 || (kv.1 == "PATH")))
    (env, false)
  let pathSet := step.2 || step.1.any (fun s => hasPref s "PATH=")
  if pathSet then step.1 else step.1 ++ ["PATH=" ++ ReasonableDefaultPath]

/-- The image-config fields touched by the cmd/entrypoint merge of
`doBuild`. `none` models a nil Go slice (field unset). -/
structure ImageConfig where
  env : List String
  cmd : Option (List String)
  entrypoint : Option (List String)
deriving DecidableEq

/-- The layer's declared command fields, already parsed (`ParseCmd`,
`ParseEntrypoint`, `ParseFullCommand` live outside the provided
sources; parse failures abort the build and are not claim-relevant). -/
structure CmdDecl where
  cmd : Option (List String)
  entrypoint : Option (List String)
  fullCommand : Option (List String)
deriving DecidableEq

/-- Embeds the cmd/entrypoint merge of `doBuild` (`stacker/build.go`
lines 231–251): a declared `cmd` overwrites the inherited one, then a
declared `entrypoint` overwrites the inherited one, then a declared
`fullCommand` clears `cmd` and sets `entrypoint`. -/
def mergeCmdEntrypoint (l : CmdDecl) (c : ImageConfig) : ImageConfig :=
  let c1 := match l.cmd with
    | some v => { c with cmd := some v }
    | none => c
  let c2 := match l.entrypoint with
    | some v => { c1 with entrypoint := some v }
    | none => c1
  match l.fullCommand with
  | some v => { c2 with cmd := none, entrypoint := some v }
  | none => c2

/-- An OCI descriptor, reduced to its content digest string. -/
structure Descriptor where
  digest : String
deriving DecidableEq

/-- The sentinel `ispec.Descriptor{}` stored in the cache for
build-only layers. -/
def emptyDescriptor : Descriptor := ⟨""⟩

/-- The `from` reference kind read by `doBuild`: a previously built
layer's tag (`stacker.BuiltType`) or anything else (handled by the
external `GetBaseLayer`). -/
inductive FromTy
  | built (tag : String)
  | other
deriving DecidableEq

/-- The layer-declaration fields driving the orchestrator's control
flow (`stacker/build.go`): the `from` kind and the `buildOnly` flag.
The config-merge fields are modelled separately by `CmdDecl` and
`mergeEnv`. -/
structure Layer where
  fromTy : FromTy
  buildOnly : Bool
deriving DecidableEq

/-- One observable effect of the per-layer body of `doBuild`. Each
constructor records a call the orchestrator makes into an external
collaborator: the import resolver, the build cache, the OCI layout
(`updateRef`, `commitImage`), the storage manager (`deleteTree`,
`createTree`, `restoreTree`, `snapshot`), command execution, the
`umoci repack` subprocess, and the bundle-metadata maintenance. -/
inductive Event
  | importFiles (name : String)
  | cacheLookup (name : String)
  | updateRef (name : String) (d : Descriptor)
  | deleteTree (name : String)
  | createTree (name : String)
  | restoreTree (tag : String) (target : String)
  | getBaseLayer (name : String)
  | runCommands (name : String)
  | repack (name : String)
  | commitImage (name : String) (d : Descriptor)
  | renameMtree (newName : String)
  | writeBundleMeta (d : Descriptor)
  | snapshot (source : String) (target : String)
  | cachePut (name : String) (d : Descriptor)
deriving DecidableEq

/-- Embeds one iteration of the layer loop of `doBuild`
(`stacker/build.go` lines 109–338) as the trace of external calls it
makes, on the non-failing path. `cached` is the result of
`buildCache.Lookup` (`some d` on a hit); `newDesc` stands for the
descriptor family produced by the mutator commit on a miss (the
committed path's root, its descriptor, and the manifest descriptor
looked up for the cache `Put` are modelled as one value). -/
def buildLayer (name : String) (l : Layer) (cached : Option Descriptor)
    (newDesc : Descriptor) : List Event :=
  [.importFiles name, .cacheLookup name] ++
  match cached with
  | some d => [.updateRef name d]
  | none =>
    [.deleteTree ".working"] ++
    (match l.fromTy with
      | .built tag => [.restoreTree tag ".working"]
      | .other => [.createTree ".working", .getBaseLayer name]) ++
    [.runCommands name] ++
    (if l.buildOnly then
      [.deleteTree name, .snapshot ".working" name, .cachePut name emptyDescriptor]
    else
      [.repack name, .commitImage name newDesc, .updateRef name newDesc,
       .renameMtree (mtreeName newDesc.digest), .writeBundleMeta newDesc,
       .deleteTree name, .snapshot ".working" name, .cachePut name newDesc])

/-- ASCII lower-casing of one character, as `strings.ToLower` performs
it on scheme characters. -/
def lowerChar (c : Char) : Char :=
  if 'A' ≤ c ∧ c ≤ 'Z' then Char.ofNat (c.toNat + 32) else c

/-- Embeds `getScheme` of Go's `net/url` as used by `url.Parse` inside
`acquireUrl`: scan for a `:` preceded only by scheme characters
(letters, and after the first position digits, `+`, `-`, `.`); a
leading `:` is a parse error; any other character, a non-letter first
character, or the end of the string means the URL has no scheme. The
scheme is lower-cased as `url.Parse` does. `acc` holds the scheme
characters seen so far. -/
def getSchemeAux (acc : List Char) : List Char → Except String String
  | [] => .ok ""
  | c :: rest =>
    if ('a' ≤ c ∧ c ≤ 'z') ∨ ('A' ≤ c ∧ c ≤ 'Z') then
      getSchemeAux (acc ++ [c]) rest
    else if ('0' ≤ c ∧ c ≤ '9') ∨ c = '+' ∨ c = '-' ∨ c = '.' then
      if acc = [] then .ok "" else getSchemeAux (acc ++ [c]) rest
    else if c = ':' then
      if acc = [] then .error "missing protocol scheme"
      else .ok (String.mk (acc.map lowerChar))
    else .ok ""

/-- The URI scheme of an import specification, per `url.Parse`. -/
def getScheme (s : String) : Except String String := getSchemeAux [] s.data

/-- The acquisition `acquireUrl` performs for a supported scheme: a
local-path `importFile`, a `download`, or an `importFile` rooted in
another layer's rootfs (`stacker://`). -/
inductive UrlAction
  | localImport (path : String)
  | download (u : String)
  | stackerImport (u : String)
deriving DecidableEq

/-- Embeds the scheme dispatch of `acquireUrl` (`import.go` lines
132–150): empty scheme → local `importFile`; `http`/`https` →
`download`; `stacker` → `importFile` of a path inside the named
layer's rootfs; anything else → the unsupported-scheme error. The
filesystem and network effects of the chosen acquisition are abstracted
as the returned `UrlAction` (their own IO failures are not modelled). -/
def acquireUrl (i : String) : Except String UrlAction :=
  match getScheme i with
  | .error e => .error e
  | .ok scheme =>
    if scheme = "" then .ok (.localImport i)
    else if scheme = "http" ∨ scheme = "https" then .ok (.download i)
    else if scheme = "stacker" then .ok (.stackerImport i)
    else .error ("unsupported url scheme " ++ i)

/-- Embeds the loop of `Import` (`import.go` lines 152–167): acquire
each import specification in order, stopping at the first failure.
Returns the acquisitions actually performed together with the error, if
any, that stopped the loop. -/
def Import : List String → List UrlAction × Option String
  | [] => ([], none)
  | i :: rest =>
    match acquireUrl i with
    | .error e => ([], some e)
    | .ok a =>
      let r := Import rest
      (a :: r.1, r.2)

/-- C1: for regular (non-symlink) entries with the same base name,
`filesDiffer` reports "not differs" exactly when size and byte content
are both equal, reports "differs" for any byte difference, and when the
sizes differ reports "differs" whatever the contents are (so the
contents are never consulted on that path). -/
theorem filesDiffer_regular (e1 e2 : FsEntry)
    (h1 : e1.isSymlink = false) (h2 : e2.isSymlink = false)
    (hn : e1.name = e2.name) :
    (filesDiffer e1 e2 = .ok false ↔ e1.size = e2.size ∧ e1.content = e2.content)
    ∧ (e1.content ≠ e2.content → filesDiffer e1 e2 = .ok true)
    ∧ (e1.size ≠ e2.size → ∀ c1 c2,
        filesDiffer { e1 with content := c1 } { e2 with content := c2 } = .ok true) := by
  refine ⟨?_, ?_, ?_⟩
  · by_cases hs : e1.size = e2.size
    · simp [filesDiffer, hn, h1, hs]
    · simp [filesDiffer, hn, h1, hs]
  · intro hc
    by_cases hs : e1.size = e2.size
    · simp [filesDiffer, hn, h1, hs, hc]
    · simp [filesDiffer, hn, h1, hs]
  · intro hs c1 c2
    simp [filesDiffer, hn, h1, hs]

/-- C2 counterexample: a non-symlink first entry paired with a symlink
second entry of the same name does NOT produce the unsupported-comparison
error — `filesDiffer` only tests the first entry's symlink bit, so this
pair falls through to the size/content comparison and even yields a
silent "not differs". The claim requires an error in either argument
order. -/
theorem filesDiffer_mixed_counterexample :
    filesDiffer ⟨"f", false, "", 2, [65, 66]⟩ ⟨"f", true, "target", 2, [65, 66]⟩ = .ok false
    ∧ (FsEntry.mk "f" false "" 2 [65, 66]).isSymlink = false
    ∧ (FsEntry.mk "f" true "target" 2 [65, 66]).isSymlink = true := by
  refine ⟨?_, rfl, rfl⟩
  simp [filesDiffer]

/-- C2 amended: only the first argument's symlink bit guards the symlink
branch. A symlink first entry with a non-symlink second entry yields the
unsupported-comparison error; two symlinks compare `Readlink` target
strings for equality without dereferencing; a non-symlink first entry is
compared by size and content regardless of the second entry's symlink
bit (no error in that argument order). -/
theorem filesDiffer_symlink (e1 e2 : FsEntry) (hn : e1.name = e2.name) :
    (e1.isSymlink = true → e2.isSymlink = false →
      filesDiffer e1 e2 = .error "symlink -> not symlink not supported")
    ∧ (e1.isSymlink = true → e2.isSymlink = true →
      filesDiffer e1 e2 = .ok (e1.linkTarget != e2.linkTarget))
    ∧ (e1.isSymlink = false →
      filesDiffer e1 e2 =
        if e1.size ≠ e2.size then .ok true else .ok (e1.content != e2.content)) := by
  refine ⟨fun h1 h2 => ?_, fun h1 h2 => ?_, fun h1 => ?_⟩
  · simp [filesDiffer, hn, h1, h2]
  · simp [filesDiffer, hn, h1, h2]
  · by_cases hs : e1.size = e2.size
    · simp [filesDiffer, hn, h1, hs]
    · simp [filesDiffer, hn, h1, hs]

/-- Witness for the amended C2 at a concrete symlink pair. -/
theorem filesDiffer_symlink_witness :
    ((FsEntry.mk "l" true "t1" 2 []).isSymlink = true →
      (FsEntry.mk "l" false "" 2 []).isSymlink = false →
      filesDiffer ⟨"l", true, "t1", 2, []⟩ ⟨"l", false, "", 2, []⟩ =
        .error "symlink -> not symlink not supported")
    ∧ ((FsEntry.mk "l" true "t1" 2 []).isSymlink = true →
      (FsEntry.mk "l" false "" 2 []).isSymlink = true →
      filesDiffer ⟨"l", true, "t1", 2, []⟩ ⟨"l", false, "", 2, []⟩ =
        .ok ("t1" != ""))
    ∧ ((FsEntry.mk "l" true "t1" 2 []).isSymlink = false →
      filesDiffer ⟨"l", true, "t1", 2, []⟩ ⟨"l", false, "", 2, []⟩ =
        if (2 : Nat) ≠ 2 then .ok true else .ok (([] : List Nat) != [])) :=
  filesDiffer_symlink ⟨"l", true, "t1", 2, []⟩ ⟨"l", false, "", 2, []⟩ rfl

/-- Witness for C1 at a concrete pair of equal regular files. -/
theorem filesDiffer_regular_witness :
    (filesDiffer ⟨"a.txt", false, "", 2, [7, 9]⟩ ⟨"a.txt", false, "", 2, [7, 9]⟩ = .ok false ↔
      (2 : Nat) = 2 ∧ [7, 9] = [7, 9])
    ∧ (([7, 9] : List Nat) ≠ [7, 9] →
        filesDiffer ⟨"a.txt", false, "", 2, [7, 9]⟩ ⟨"a.txt", false, "", 2, [7, 9]⟩ = .ok true)
    ∧ ((2 : Nat) ≠ 2 → ∀ c1 c2,
        filesDiffer ⟨"a.txt", false, "", 2, c1⟩ ⟨"a.txt", false, "", 2, c2⟩ = .ok true) :=
  filesDiffer_regular ⟨"a.txt", false, "", 2, [7, 9]⟩ ⟨"a.txt", false, "", 2, [7, 9]⟩
    rfl rfl rfl

/-- C3: the single-file local import copies exactly when the
destination is absent or the comparator reports a difference, skips
otherwise, preserves the source's mode bits on copy, and importing the
same unchanged file a second time (against the copy made by the first
import) performs zero copies. -/
theorem importFile_spec (src d : File) (hname : d.name = src.name) :
    importFile src none = .ok (fileCopy src.name src, 1)
    ∧ (filesDiffer (statEntry src) (statEntry d) = .ok true →
        importFile src (some d) = .ok (fileCopy src.name src, 1))
    ∧ (filesDiffer (statEntry src) (statEntry d) = .ok false →
        importFile src (some d) = .ok (d, 0))
    ∧ (fileCopy src.name src).mode = src.mode
    ∧ importFile src (some (fileCopy src.name src)) = .ok (fileCopy src.name src, 0) := by
  refine ⟨rfl, fun h => ?_, fun h => ?_, rfl, ?_⟩
  · simp [importFile, h]
  · simp [importFile, h]
  · have hsame : filesDiffer (statEntry src) (statEntry (fileCopy src.name src)) = .ok false := by
      simp [filesDiffer, statEntry, fileCopy]
    simp [importFile, hsame]

/-- Witness for C3 at a concrete source/destination pair that differ. -/
theorem importFile_spec_witness :
    importFile ⟨"d.txt", 420, [1, 2]⟩ none = .ok (fileCopy "d.txt" ⟨"d.txt", 420, [1, 2]⟩, 1)
    ∧ (filesDiffer (statEntry ⟨"d.txt", 420, [1, 2]⟩) (statEntry ⟨"d.txt", 493, [3]⟩) = .ok true →
        importFile ⟨"d.txt", 420, [1, 2]⟩ (some ⟨"d.txt", 493, [3]⟩) =
          .ok (fileCopy "d.txt" ⟨"d.txt", 420, [1, 2]⟩, 1))
    ∧ (filesDiffer (statEntry ⟨"d.txt", 420, [1, 2]⟩) (statEntry ⟨"d.txt", 493, [3]⟩) = .ok false →
        importFile ⟨"d.txt", 420, [1, 2]⟩ (some ⟨"d.txt", 493, [3]⟩) = .ok (⟨"d.txt", 493, [3]⟩, 0))
    ∧ (fileCopy "d.txt" ⟨"d.txt", 420, [1, 2]⟩).mode = 420
    ∧ importFile ⟨"d.txt", 420, [1, 2]⟩ (some (fileCopy "d.txt" ⟨"d.txt", 420, [1, 2]⟩)) =
        .ok (fileCopy "d.txt" ⟨"d.txt", 420, [1, 2]⟩, 0) :=
  importFile_spec ⟨"d.txt", 420, [1, 2]⟩ ⟨"d.txt", 493, [3]⟩ rfl

/-- C4 counterexample: on a cache hit, a build-only layer's named OCI
reference IS updated — `doBuild` calls `oci.UpdateReference` with the
cached descriptor before testing `BuildOnly`, and the cached descriptor
recorded for a build-only layer is the sentinel. The claim asserts no
reference update happens for a build-only layer on any path. -/
theorem buildOnly_cacheHit_counterexample :
    Event.updateRef "b" emptyDescriptor ∈
      buildLayer "b" ⟨FromTy.other, true⟩ (some emptyDescriptor) emptyDescriptor := by
  simp [buildLayer]

/-- C4 amended: on a cache miss, a build-only layer triggers no
reference update: the commit pipeline (repack, mutator commit,
reference update, mtree rename, bundle-meta rewrite) is skipped
entirely, the working tree is snapshotted directly, and the cache `Put`
receives the sentinel empty descriptor. On a cache hit, however, the
orchestrator updates the layer's named reference with the cached
(sentinel) descriptor exactly as for any other layer. -/
theorem buildLayer_buildOnly (name : String) (l : Layer) (nd : Descriptor)
    (h : l.buildOnly = true) :
    (∀ d, Event.updateRef name d ∉ buildLayer name l none nd)
    ∧ buildLayer name l none nd =
        [.importFiles name, .cacheLookup name, .deleteTree ".working"] ++
        (match l.fromTy with
          | .built tag => [.restoreTree tag ".working"]
          | .other => [.createTree ".working", .getBaseLayer name]) ++
        [.runCommands name, .deleteTree name, .snapshot ".working" name,
         .cachePut name emptyDescriptor]
    ∧ (∀ d, buildLayer name l (some d) nd =
        [.importFiles name, .cacheLookup name, .updateRef name d]) := by
  refine ⟨fun d => ?_, ?_, fun d => rfl⟩
  · cases hf : l.fromTy <;> simp [buildLayer, h, hf]
  · cases hf : l.fromTy <;> simp [buildLayer, h, hf]

/-- Witness for the amended C4 at a concrete build-only layer. -/
theorem buildLayer_buildOnly_witness :
    (∀ d, Event.updateRef "b" d ∉ buildLayer "b" ⟨FromTy.other, true⟩ none ⟨"sha256:ab"⟩)
    ∧ buildLayer "b" ⟨FromTy.other, true⟩ none ⟨"sha256:ab"⟩ =
        [.importFiles "b", .cacheLookup "b", .deleteTree ".working"] ++
        (match (Layer.mk FromTy.other true).fromTy with
          | .built tag => [.restoreTree tag ".working"]
          | .other => [.createTree ".working", .getBaseLayer "b"]) ++
        [.runCommands "b", .deleteTree "b", .snapshot ".working" "b",
         .cachePut "b" emptyDescriptor]
    ∧ (∀ d, buildLayer "b" ⟨FromTy.other, true⟩ (some d) ⟨"sha256:ab"⟩ =
        [.importFiles "b", .cacheLookup "b", .updateRef "b" d]) :=
  buildLayer_buildOnly "b" ⟨FromTy.other, true⟩ ⟨"sha256:ab"⟩ rfl

/-- C5: on a cache hit the per-layer trace consists of exactly the
import-resolver run, the cache lookup, and one reference update to the
cached descriptor — the import has already run before the lookup, and
no tree, OCI, or cache mutation happens beyond the reference update. -/
theorem buildLayer_cacheHit (name : String) (l : Layer) (d nd : Descriptor) :
    buildLayer name l (some d) nd =
      [.importFiles name, .cacheLookup name, .updateRef name d] := rfl

/-- Helper: `updateBundleMtree` leaves a block of non-`.mtree` entries
in place and continues scanning past it. -/
theorem updateBundleMtree_append (digest : String) (pre rest : List String)
    (h : ∀ g ∈ pre, hasSuf g ".mtree" = false) :
    updateBundleMtree digest (pre ++ rest) = pre ++ updateBundleMtree digest rest := by
  induction pre with
  | nil => rfl
  | cons g pre ih =>
    have hg : hasSuf g ".mtree" = false := h g (List.mem_cons_self g pre)
    simp only [List.cons_append, updateBundleMtree, hg, Bool.false_eq_true, if_false,
      List.cons.injEq, true_and]
    exact ih fun x hx => h x (List.mem_cons_of_mem g hx)

/-- C9: on the committed (non-build-only, cache-miss) path the
orchestrator, after the mutator commit and reference update, renames
the working tree's mtree file to the name derived from the new
descriptor's digest (first colon replaced by an underscore, `.mtree`
suffix) and rewrites the bundle metadata to the new descriptor; and
`updateBundleMtree` renames the single `.mtree` entry of the listing to
exactly that derived name. -/
theorem commit_updates_mtree (name : String) (l : Layer) (nd : Descriptor)
    (h : l.buildOnly = false) (digest : String) (pre post : List String) (f : String)
    (hpre : ∀ g ∈ pre, hasSuf g ".mtree" = false)
    (hpost : ∀ g ∈ post, hasSuf g ".mtree" = false)
    (hf : hasSuf f ".mtree" = true) :
    buildLayer name l none nd =
      [.importFiles name, .cacheLookup name, .deleteTree ".working"] ++
      (match l.fromTy with
        | .built tag => [.restoreTree tag ".working"]
        | .other => [.createTree ".working", .getBaseLayer name]) ++
      [.runCommands name, .repack name, .commitImage name nd, .updateRef name nd,
       .renameMtree (mtreeName nd.digest), .writeBundleMeta nd,
       .deleteTree name, .snapshot ".working" name, .cachePut name nd]
    ∧ updateBundleMtree digest (pre ++ f :: post) = pre ++ mtreeName digest :: post := by
  constructor
  · cases hft : l.fromTy <;> simp [buildLayer, h, hft]
  · rw [updateBundleMtree_append digest pre (f :: post) hpre]
    simp [updateBundleMtree, hf]

/-- Witness for C9 at a concrete layer and directory listing. -/
theorem commit_updates_mtree_witness :
    buildLayer "a" ⟨FromTy.built "base", false⟩ none ⟨"sha256:12ab"⟩ =
      [.importFiles "a", .cacheLookup "a", .deleteTree ".working"] ++
      (match (Layer.mk (FromTy.built "base") false).fromTy with
        | .built tag => [.restoreTree tag ".working"]
        | .other => [.createTree ".working", .getBaseLayer "a"]) ++
      [.runCommands "a", .repack "a", .commitImage "a" ⟨"sha256:12ab"⟩,
       .updateRef "a" ⟨"sha256:12ab"⟩,
       .renameMtree (mtreeName (Descriptor.mk "sha256:12ab").digest),
       .writeBundleMeta ⟨"sha256:12ab"⟩, .deleteTree "a", .snapshot ".working" "a",
       .cachePut "a" ⟨"sha256:12ab"⟩]
    ∧ updateBundleMtree "sha256:12ab" (["config.json"] ++ "sha256_old.mtree" :: ["rootfs"]) =
        ["config.json"] ++ mtreeName "sha256:12ab" :: ["rootfs"] :=
  commit_updates_mtree "a" ⟨FromTy.built "base", false⟩ ⟨"sha256:12ab"⟩ rfl
    "sha256:12ab" ["config.json"] ["rootfs"] "sha256_old.mtree"
    (by decide) (by decide) (by decide)

/-- C10: a listing with no `.mtree` entry is returned unchanged (the Go
function returns `nil` success without renaming or reporting a missing
baseline), and in a listing with several `.mtree` entries only the
first in directory order is renamed — everything after it, `.mtree` or
not, is left in place. -/
theorem updateBundleMtree_edge (digest : String) :
    (∀ files, (∀ g ∈ files, hasSuf g ".mtree" = false) →
      updateBundleMtree digest files = files)
    ∧ (∀ pre f rest, (∀ g ∈ pre, hasSuf g ".mtree" = false) → hasSuf f ".mtree" = true →
      updateBundleMtree digest (pre ++ f :: rest) = pre ++ mtreeName digest :: rest) := by
  constructor
  · intro files hfiles
    have := updateBundleMtree_append digest files [] hfiles
    simpa [updateBundleMtree] using this
  · intro pre f rest hpre hf
    rw [updateBundleMtree_append digest pre (f :: rest) hpre]
    simp [updateBundleMtree, hf]

/-- Witness for C10: an mtree-free listing is untouched, and with two
`.mtree` entries only the first is renamed. -/
theorem updateBundleMtree_edge_witness :
    ((∀ g ∈ ["config.json", "rootfs"], hasSuf g ".mtree" = false) →
      updateBundleMtree "sha256:99" ["config.json", "rootfs"] = ["config.json", "rootfs"])
    ∧ ((∀ g ∈ ["config.json"], hasSuf g ".mtree" = false) →
      hasSuf "one.mtree" ".mtree" = true →
      updateBundleMtree "sha256:99" (["config.json"] ++ "one.mtree" :: ["two.mtree"]) =
        ["config.json"] ++ mtreeName "sha256:99" :: ["two.mtree"]) :=
  ⟨fun h => (updateBundleMtree_edge "sha256:99").1 ["config.json", "rootfs"] h,
   fun h hf => (updateBundleMtree_edge "sha256:99").2 ["config.json"] "one.mtree" ["two.mtree"] h hf⟩

/-- Helper: a char list is an initial segment of itself extended. -/
theorem isPre_append (p t : List Char) : isPre p (p ++ t) = true := by
  induction p with
  | nil => rfl
  | cons a as ih => simp [isPre, ih]

/-- Helper: `PATH=` is a prefix of every rendered `PATH=<v>` entry. -/
theorem hasPref_path_append (v : String) : hasPref ("PATH=" ++ v) "PATH=" = true := by
  rw [hasPref, String.data_append]
  exact isPre_append _ _

/-- Helper: the append/flag fold of the environment merge, solved. -/
theorem mergeEnv_foldl (declared : List (String × String)) (env : List String) (b : Bool) :
    declared.foldl
      (fun acc kv => (acc.1 ++ [kv.1 ++ "=" ++ kv.2], acc.2 || (kv.1 == "PATH")))
      (env, b) =
    (env ++ declared.map (fun kv => kv.1 ++ "=" ++ kv.2),
     b || declared.any (fun kv => kv.1 == "PATH")) := by
  induction declared generalizing env b with
  | nil => simp
  | cons kv rest ih =>
    simp only [List.foldl_cons, ih, List.map_cons, List.any_cons, Prod.mk.injEq]
    refine ⟨by simp, by cases b <;> simp [Bool.or_assoc]⟩

/-- Helper: among the rendered `k=v` entries, one has prefix `PATH=`
exactly when a key is literally `PATH`, provided no other declared key
renders with that prefix. -/
theorem rendered_any_path (declared : List (String × String))
    (H : ∀ kv ∈ declared, kv.1 ≠ "PATH" → hasPref (kv.1 ++ "=" ++ kv.2) "PATH=" = false) :
    (declared.map (fun kv => kv.1 ++ "=" ++ kv.2)).any (fun s => hasPref s "PATH=") =
      declared.any (fun kv => kv.1 == "PATH") := by
  induction declared with
  | nil => rfl
  | cons kv rest ih =>
    simp only [List.map_cons, List.any_cons]
    rw [ih fun x hx hne => H x (List.mem_cons_of_mem kv hx) hne]
    by_cases hk : kv.1 = "PATH"
    · have hpath : ("PATH" : String) ++ "=" = "PATH=" := rfl
      rw [hk, hpath, hasPref_path_append]
      simp
    · rw [H kv (List.mem_cons_self kv rest) hk]
      simp [hk]

/-- C6: the merged environment is the inherited environment followed by
the rendered declared variables, and the default `PATH` entry is
appended exactly when no declared key is `PATH` and no inherited entry
has prefix `PATH=`. The hypothesis rules out degenerate declared keys
(such as a key containing `=`) whose rendering would itself start with
`PATH=`. -/
theorem mergeEnv_spec (declared : List (String × String)) (env : List String)
    (H : ∀ kv ∈ declared, kv.1 ≠ "PATH" → hasPref (kv.1 ++ "=" ++ kv.2) "PATH=" = false) :
    mergeEnv declared env =
      (env ++ declared.map (fun kv => kv.1 ++ "=" ++ kv.2)) ++
      (if declared.any (fun kv => kv.1 == "PATH")
          || env.any (fun s => hasPref s "PATH=") then []
       else ["PATH=" ++ ReasonableDefaultPath]) := by
  rw [mergeEnv, mergeEnv_foldl]
  simp only [Bool.false_or, List.any_append]
  rw [rendered_any_path declared H]
  cases hd : declared.any (fun kv => kv.1 == "PATH") <;>
    cases he : env.any (fun s => hasPref s "PATH=") <;> simp

/-- Witness for C6 at the spec's own example: inherited environment
without `PATH` and a layer declaring `FOO=bar` yields `FOO=bar` plus
the appended default `PATH`. -/
theorem mergeEnv_spec_witness :
    mergeEnv [("FOO", "bar")] ["TERM=xterm"] =
      (["TERM=xterm"] ++ [("FOO", "bar")].map (fun kv => kv.1 ++ "=" ++ kv.2)) ++
      (if [("FOO", "bar")].any (fun kv => kv.1 == "PATH")
          || ["TERM=xterm"].any (fun s => hasPref s "PATH=") then []
       else ["PATH=" ++ ReasonableDefaultPath]) :=
  mergeEnv_spec [("FOO", "bar")] ["TERM=xterm"] (by decide)

/-- C7: a declared `fullCommand` clears `cmd` and sets `entrypoint`
from it, whatever `cmd`/`entrypoint` were declared or inherited;
without one, a declared `entrypoint` or `cmd` overrides its inherited
counterpart, and an undeclared one is inherited unchanged. -/
theorem mergeCmdEntrypoint_spec (l : CmdDecl) (c : ImageConfig) :
    (∀ v, l.fullCommand = some v →
      (mergeCmdEntrypoint l c).cmd = none ∧ (mergeCmdEntrypoint l c).entrypoint = some v)
    ∧ (l.fullCommand = none →
        (∀ v, l.cmd = some v → (mergeCmdEntrypoint l c).cmd = some v)
        ∧ (l.cmd = none → (mergeCmdEntrypoint l c).cmd = c.cmd)
        ∧ (∀ v, l.entrypoint = some v → (mergeCmdEntrypoint l c).entrypoint = some v)
        ∧ (l.entrypoint = none → (mergeCmdEntrypoint l c).entrypoint = c.entrypoint)) := by
  constructor
  · intro v hv
    cases hc : l.cmd <;> cases he : l.entrypoint <;>
      simp [mergeCmdEntrypoint, hv, hc, he]
  · intro hv
    refine ⟨fun v hc => ?_, fun hc => ?_, fun v he => ?_, fun he => ?_⟩ <;>
      cases hc2 : l.cmd <;> cases he2 : l.entrypoint <;>
        simp_all [mergeCmdEntrypoint]

/-- Witness for C7 at a layer declaring both `cmd` and `fullCommand`
over a config inheriting both fields. -/
theorem mergeCmdEntrypoint_spec_witness :
    (∀ v, (CmdDecl.mk (some ["c"]) none (some ["f"])).fullCommand = some v →
      (mergeCmdEntrypoint ⟨some ["c"], none, some ["f"]⟩ ⟨[], some ["oc"], some ["oe"]⟩).cmd = none
      ∧ (mergeCmdEntrypoint ⟨some ["c"], none, some ["f"]⟩
          ⟨[], some ["oc"], some ["oe"]⟩).entrypoint = some v)
    ∧ ((CmdDecl.mk (some ["c"]) none (some ["f"])).fullCommand = none →
        (∀ v, (CmdDecl.mk (some ["c"]) none (some ["f"])).cmd = some v →
          (mergeCmdEntrypoint ⟨some ["c"], none, some ["f"]⟩
            ⟨[], some ["oc"], some ["oe"]⟩).cmd = some v)
        ∧ ((CmdDecl.mk (some ["c"]) none (some ["f"])).cmd = none →
          (mergeCmdEntrypoint ⟨some ["c"], none, some ["f"]⟩
            ⟨[], some ["oc"], some ["oe"]⟩).cmd = (ImageConfig.mk [] (some ["oc"]) (some ["oe"])).cmd)
        ∧ (∀ v, (CmdDecl.mk (some ["c"]) none (some ["f"])).entrypoint = some v →
          (mergeCmdEntrypoint ⟨some ["c"], none, some ["f"]⟩
            ⟨[], some ["oc"], some ["oe"]⟩).entrypoint = some v)
        ∧ ((CmdDecl.mk (some ["c"]) none (some ["f"])).entrypoint = none →
          (mergeCmdEntrypoint ⟨some ["c"], none, some ["f"]⟩
            ⟨[], some ["oc"], some ["oe"]⟩).entrypoint =
              (ImageConfig.mk [] (some ["oc"]) (some ["oe"])).entrypoint)) :=
  mergeCmdEntrypoint_spec ⟨some ["c"], none, some ["f"]⟩ ⟨[], some ["oc"], some ["oe"]⟩

/-- C8: an import specification that parses with a scheme other than
empty, `http`, `https`, or `stacker` makes `acquireUrl` fail with the
unsupported-scheme error, and `Import` run on a list containing such a
specification performs exactly the acquisitions preceding it, stops at
it with its error, and performs nothing from the rest of the list. -/
theorem acquireUrl_unsupported (i s : String) (hs : getScheme i = .ok s)
    (h1 : s ≠ "") (h2 : s ≠ "http") (h3 : s ≠ "https") (h4 : s ≠ "stacker") :
    acquireUrl i = .error ("unsupported url scheme " ++ i)
    ∧ ∀ pre post, (∀ j ∈ pre, (acquireUrl j).isOk = true) →
        Import (pre ++ i :: post) =
          (pre.filterMap (fun j => (acquireUrl j).toOption),
           some ("unsupported url scheme " ++ i)) := by
  have herr : acquireUrl i = .error ("unsupported url scheme " ++ i) := by
    simp [acquireUrl, hs, h1, h2, h3, h4]
  refine ⟨herr, fun pre post hpre => ?_⟩
  induction pre with
  | nil => simp [Import, herr]
  | cons j rest ih =>
    have hj : (acquireUrl j).isOk = true := hpre j (List.mem_cons_self j rest)
    cases hja : acquireUrl j with
    | error e => rw [hja] at hj; simp [Except.isOk, Except.toBool] at hj
    | ok a =>
      have hrest := ih fun x hx => hpre x (List.mem_cons_of_mem j hx)
      simp [Import, hja, hrest, List.filterMap_cons, Except.toOption]

/-- Witness for C8: a local path imports, an `ftp://` specification
stops the whole list with the unsupported-scheme error, and the
specification after it is never attempted. -/
theorem acquireUrl_unsupported_witness :
    acquireUrl "ftp://host/f" = .error ("unsupported url scheme " ++ "ftp://host/f")
    ∧ ∀ pre post, (∀ j ∈ pre, (acquireUrl j).isOk = true) →
        Import (pre ++ "ftp://host/f" :: post) =
          (pre.filterMap (fun j => (acquireUrl j).toOption),
           some ("unsupported url scheme " ++ "ftp://host/f")) :=
  acquireUrl_unsupported "ftp://host/f" "ftp" (by rfl)
    (by decide) (by decide) (by decide) (by decide)
